import Mathlib

/-!
Shallow embedding of the `ants` client package (`client.go`): address
resolution (`Linker`), the per-address session pool, call dispatch
(`Pull` / `Push` / `AsyncPull`), and configuration normalization.

Modelling conventions:
* Go strings are `List Char` (named `Str`), so that `strings.Index` and
  slicing are structural.
* `time.Duration` and Go `int` are `Int` (nanoseconds for durations).
* The transport peer (`tp.Peer`), the wire protocol and the internals of
  `cliSession.CliSession` are external collaborators: the peer is an opaque
  identifier and a session is the record of the constructor arguments the
  client passes to `cliSession.New`, plus a ghost creation ordinal `id`
  used to tell instances apart.
* A Go function that can panic (calling `Select` through a nil `Linker`
  interface) returns `Option`, with `none` as the panic outcome.
* `goutil.Map` (a `sync.Map`) is an association list: `Load` is lookup of
  the first (unique) binding, `Store` overwrites an existing binding for
  the key or appends a fresh one.
-/

/-- Go strings, modelled as their character lists. -/
abbrev Str := List Char

/-- Model of `tp.Rerror` (a structured remote error). -/
structure Rerror where
  code : Int
  message : Str
  reason : Str
deriving DecidableEq

/-- Model of the `Linker` interface of `client.go`: `Select(uriPath string)
(string, *tp.Rerror)`, returning either the selected address or an error. -/
abbrev Linker := Str → Except Rerror Str

/-- Model of the unexported `staticLinker` struct. -/
structure staticLinker where
  srvAddr : Str

/-- Model of `(*staticLinker).Select`: returns the fixed address, nil error. -/
def staticLinker.Select (d : staticLinker) (_uriPath : Str) : Except Rerror Str :=
  Except.ok d.srvAddr

/-- Model of `NewStaticLinker(srvAddr string) Linker`. -/
def NewStaticLinker (srvAddr : Str) : Linker :=
  fun uriPath => (staticLinker.mk srvAddr).Select uriPath

/-- Nanoseconds in Go's `time.Minute`. -/
def timeMinute : Int := 60000000000

/-- Model of `CliConfig` (field defaults are Go zero values). -/
structure CliConfig where
  tlsCertFile : Str := []
  tlsKeyFile : Str := []
  defaultReadTimeout : Int := 0
  defaultWriteTimeout : Int := 0
  defaultDialTimeout : Int := 0
  redialTimes : Int := 0
  slowCometDuration : Int := 0
  defaultBodyCodec : Str := []
  printBody : Bool := false
  countTime : Bool := false
  network : Str := []
  heartbeat : Int := 0
  sessMaxQuota : Int := 0
  sessMaxIdleDuration : Int := 0
deriving DecidableEq

/-- Model of `(*CliConfig).check`: normalizes `SessMaxQuota` to 100 when
non-positive and `SessMaxIdleDuration` to `time.Minute * 3` when
non-positive, and returns nil error. The Go method mutates its receiver;
here the updated config is returned alongside the (always nil) error. -/
def CliConfig.check (c : CliConfig) : CliConfig × Option Rerror :=
  let c1 := if c.sessMaxQuota ≤ 0 then { c with sessMaxQuota := 100 } else c
  let c2 := if c1.sessMaxIdleDuration ≤ 0 then
      { c1 with sessMaxIdleDuration := timeMinute * 3 } else c1
  (c2, none)

/-- Model of `*cliSession.CliSession` as the record of the arguments the
client passes to `cliSession.New(peer, addr, sessMaxQuota,
sessMaxIdleDuration)` (the session's internals are an external
collaborator), plus a ghost creation ordinal `id` distinguishing distinct
constructed instances. -/
structure CliSession where
  peer : Nat
  addr : Str
  sessMaxQuota : Int
  sessMaxIdleDuration : Int
  id : Nat
deriving DecidableEq

/-- Model of `tp.PullCmd` as far as this layer observes it: the peer it was
built over, the uri it carries, its error slot, and whether it is the
synthetic ("fake") resolution-failure result. -/
structure PullCmd where
  peer : Nat
  uri : Str
  rerr : Option Rerror
  isFake : Bool
deriving DecidableEq

/-- Model of `cliSession.NewFakePullCmd(peer, uri, args, reply, rerr, ...)`:
an already-completed result carrying the resolution error. -/
def NewFakePullCmd (peer : Nat) (uri : Str) (rerr : Rerror) : PullCmd :=
  { peer := peer, uri := uri, rerr := some rerr, isFake := true }

/-- Stub of the external collaborator `(*CliSession).Pull`: the session
executes the call and produces a genuine (non-fake) result for `uri`.
Transport behaviour is out of scope; the stub records the delegation. -/
def CliSession.Pull (s : CliSession) (uri : Str) : PullCmd :=
  { peer := s.peer, uri := uri, rerr := none, isFake := false }

/-- Stub of the external collaborator `(*CliSession).Push` (one-way send;
its transport outcome is out of scope). -/
def CliSession.Push (_s : CliSession) (_uri : Str) : Option Rerror :=
  none

/-- Stub of the external collaborator `(*CliSession).AsyncPull`: the value
is the list of completions the session eventually delivers on the `done`
channel for this call (exactly one). -/
def CliSession.AsyncPull (s : CliSession) (uri : Str) : List PullCmd :=
  [s.Pull uri]

/-- Load of `goutil.Map` (`sync.Map.Load`): lookup of the unique binding. -/
def poolLoad : List (Str × CliSession) → Str → Option CliSession
  | [], _ => none
  | (k, s) :: t, a => if k = a then some s else poolLoad t a

/-- Store of `goutil.Map` (`sync.Map.Store`): overwrites the binding for the
key when present, otherwise appends a fresh binding. -/
def poolStore : List (Str × CliSession) → Str → CliSession → List (Str × CliSession)
  | [], a, v => [(a, v)]
  | (k, s) :: t, a, v => if k = a then (a, v) :: t else (k, s) :: poolStore t a v

/-- Model of the `Client` struct. `nextSessionId` is a ghost counter of how
many sessions this client has constructed, used to give each constructed
`CliSession` a distinct `id`; it corresponds to no Go field. -/
structure Client where
  peer : Nat
  linker : Option Linker
  protoFunc : Nat
  cliSessPool : List (Str × CliSession)
  sessMaxQuota : Int
  sessMaxIdleDuration : Int
  nextSessionId : Nat

/-- Client produced by the tail of `NewClient` from the checked config:
fresh peer, no linker, default proto function, empty `goutil.AtomicMap`
pool, and the two normalized pool parameters. -/
def clientOf (cfg : CliConfig) : Client :=
  { peer := 0
    linker := none
    protoFunc := 0
    cliSessPool := []
    sessMaxQuota := (cfg.check).1.sessMaxQuota
    sessMaxIdleDuration := (cfg.check).1.sessMaxIdleDuration
    nextSessionId := 0 }

/-- Model of `NewClient(cfg, plugin...)`. `none` is the `tp.Fatalf` branch
taken when `cfg.check()` returns a non-nil error. Heartbeat plugin
registration, TLS file loading and `tp.NewPeer` are external collaborators
and not modelled (their failure modes are file and transport IO). -/
def NewClient (cfg : CliConfig) : Option Client :=
  match (cfg.check).2 with
  | some _ => none
  | none => some (clientOf cfg)

/-- Model of `(*Client).SetLinker`. -/
def Client.SetLinker (c : Client) (linker : Linker) : Client :=
  { c with linker := some linker }

/-- Model of `(*Client).SetProtoFunc`. -/
def Client.SetProtoFunc (c : Client) (protoFunc : Nat) : Client :=
  { c with protoFunc := protoFunc }

/-- Model of `strings.Index(uri, "?")`: byte index of the first `'?'`. -/
def indexOfQ : Str → Option Nat
  | [] => none
  | ch :: t => if ch = '?' then some 0 else (indexOfQ t).map (· + 1)

/-- Query stripping at the head of `getCliSession`: `uri = uri[:idx]` when
`strings.Index(uri, "?")` is some `idx`, the uri unchanged otherwise. -/
def stripQuery (uri : Str) : Str :=
  match indexOfQ uri with
  | some idx => uri.take idx
  | none => uri

/-- Transcription of the spec's words for query stripping ("strips
everything from the first `?` in `uri` onward"), to be compared with the
source-derived `stripQuery`. -/
def stripQuerySpec (uri : Str) : Str :=
  uri.takeWhile (fun ch => ch != '?')

/-- Session constructed at the pool-miss branch of `getCliSession`:
`cliSession.New(c.peer, addr, c.sessMaxQuota, c.sessMaxIdleDuration)`,
stamped with the ghost creation ordinal. -/
def newSessionOf (c : Client) (addr : Str) : CliSession :=
  { peer := c.peer
    addr := addr
    sessMaxQuota := c.sessMaxQuota
    sessMaxIdleDuration := c.sessMaxIdleDuration
    id := c.nextSessionId }

/-- Effect of `c.cliSessPool.Store(addr, cliSess)` at the pool-miss branch:
the new session is stored (plain overwrite `Store`) and the ghost creation
counter advances. -/
def storeNewSession (c : Client) (addr : Str) : Client :=
  { c with
    cliSessPool := poolStore c.cliSessPool addr (newSessionOf c addr)
    nextSessionId := c.nextSessionId + 1 }

/-- Model of `(*Client).getCliSession`: strip the query, resolve through the
linker, then look the address up in the pool, constructing and storing a
new session on a miss. `none` models the panic of calling `Select` on a
nil `linker` interface. -/
def Client.getCliSession (c : Client) (uri : Str) : Option (Except Rerror CliSession × Client) :=
  match c.linker with
  | none => none
  | some linker =>
    match linker (stripQuery uri) with
    | Except.error rerr => some (Except.error rerr, c)
    | Except.ok addr =>
      match poolLoad c.cliSessPool addr with
      | some s => some (Except.ok s, c)
      | none => some (Except.ok (newSessionOf c addr), storeNewSession c addr)

/-- Model of `(*Client).Pull`: on resolution failure, a fake already-failed
`PullCmd` built from the client's peer and the original (unstripped) uri;
otherwise the call is delegated to the session. The updated client is
returned alongside (the Go method mutates `c.cliSessPool` in place). -/
def Client.Pull (c : Client) (uri : Str) : Option (PullCmd × Client) :=
  match c.getCliSession uri with
  | none => none
  | some (Except.error rerr, c') => some (NewFakePullCmd c.peer uri rerr, c')
  | some (Except.ok s, c') => some (s.Pull uri, c')

/-- Model of `(*Client).Push`: on resolution failure the error is returned
directly; otherwise the one-way send is delegated to the session. -/
def Client.Push (c : Client) (uri : Str) : Option (Option Rerror × Client) :=
  match c.getCliSession uri with
  | none => none
  | some (Except.error rerr, c') => some (some rerr, c')
  | some (Except.ok s, c') => some (s.Push uri, c')

/-- Model of `(*Client).AsyncPull`: the first component is the list of
completions delivered on the `done` channel on behalf of this call — on
resolution failure exactly one fake already-failed `PullCmd` (built from
the client's peer and the original uri), otherwise whatever the session
delivers. -/
def Client.AsyncPull (c : Client) (uri : Str) : Option (List PullCmd × Client) :=
  match c.getCliSession uri with
  | none => none
  | some (Except.error rerr, c') => some ([NewFakePullCmd c.peer uri rerr], c')
  | some (Except.ok s, c') => some (s.AsyncPull uri, c')

/-- Load phase of `getCliSession` (the `c.cliSessPool.Load(addr)` read at
line 169), as one atomic step of a caller. -/
def loadPhase (c : Client) (addr : Str) : Option CliSession :=
  poolLoad c.cliSessPool addr

/-- Create-and-store phase of `getCliSession` (lines 173-179: construct the
session, `Store` it, return it), as one atomic step of a caller that
observed a pool miss. -/
def createStorePhase (c : Client) (addr : Str) : CliSession × Client :=
  (newSessionOf c addr, storeNewSession c addr)

/-- Frame of a dispatch call on the client: every field except the session
pool (and the ghost creation counter) is untouched. -/
def sameCore (c c' : Client) : Prop :=
  c'.peer = c.peer ∧ c'.linker = c.linker ∧ c'.protoFunc = c.protoFunc ∧
  c'.sessMaxQuota = c.sessMaxQuota ∧ c'.sessMaxIdleDuration = c.sessMaxIdleDuration

/-- Pool effect of a dispatch call: either unchanged, or exactly one fresh
binding appended for an address that was absent. -/
def poolExtends (c c' : Client) : Prop :=
  c'.cliSessPool = c.cliSessPool ∨
  ∃ a s, poolLoad c.cliSessPool a = none ∧ c'.cliSessPool = c.cliSessPool ++ [(a, s)]

/-- Concrete address used by the concrete executions below. -/
def addr0 : Str := "127.0.0.1:9090".toList

/-- Concrete client builder for concrete executions: fresh client state with
the given linker and the default pool parameters. -/
def mkTestClient (lk : Option Linker) : Client :=
  { peer := 0
    linker := lk
    protoFunc := 0
    cliSessPool := []
    sessMaxQuota := 100
    sessMaxIdleDuration := timeMinute * 3
    nextSessionId := 0 }

/-- Client with a static linker at `addr0` and an empty pool. -/
def raceClient : Client := mkTestClient (some (NewStaticLinker addr0))

/-- Client with no linker configured (nil `Linker` interface). -/
def noLinkerClient : Client := mkTestClient none

/-- Error used by the always-failing linker below. -/
def noRoute : Rerror := { code := 404, message := "no route".toList, reason := [] }

/-- Linker that errors with `noRoute` on every path. -/
def noRouteLinker : Linker := fun _ => Except.error noRoute

/-- Client whose linker always errors with `noRoute`. -/
def noRouteClient : Client := mkTestClient (some noRouteLinker)

/-- Linker returning its path argument as the address, making the argument
given to `Select` observable as the resolved address. -/
def idLinker : Linker := fun uriPath => Except.ok uriPath

/-- Client with the identity linker and an empty pool. -/
def idClient : Client := mkTestClient (some idLinker)

/-- Interleaved execution of two callers A and B of `getCliSession` for the
same fresh address: A loads (miss), B loads (miss), A creates and stores,
B creates and stores. Components: A's returned session, B's returned
session, the final shared client state. -/
def raceTrace : CliSession × CliSession × Client :=
  let stepA := createStorePhase raceClient addr0
  let stepB := createStorePhase stepA.2 addr0
  (stepA.1, stepB.1, stepB.2)

/-- Configuration with every field at its Go zero value. -/
def cfg0 : CliConfig := {}

/-! Helper lemmas (shared infrastructure, not claim theorems). -/

theorem stripQuery_eq_takeWhile (l : Str) :
    stripQuery l = l.takeWhile (fun ch => ch != '?') := by
  induction l with
  | nil => rfl
  | cons ch t ih =>
    by_cases h : ch = '?'
    · subst h
      simp [stripQuery, indexOfQ, List.takeWhile_cons]
    · cases hq : indexOfQ t with
      | none =>
        have h2 : stripQuery t = t := by simp [stripQuery, hq]
        have h1 : stripQuery (ch :: t) = ch :: t := by
          simp [stripQuery, indexOfQ, h, hq]
        rw [h1, List.takeWhile_cons]
        simp only [bne_iff_ne, ne_eq, h, not_false_eq_true, if_true, decide_not]
        simp [h, ← ih, h2]
      | some i =>
        have h2 : stripQuery t = t.take i := by simp [stripQuery, hq]
        have h1 : stripQuery (ch :: t) = ch :: t.take i := by
          simp [stripQuery, indexOfQ, h, hq]
        rw [h1, List.takeWhile_cons]
        simp [h, ← ih, h2]

theorem qmark_not_mem_stripQuery (l : Str) : '?' ∉ stripQuery l := by
  rw [stripQuery_eq_takeWhile]
  intro hmem
  have := List.mem_takeWhile_imp hmem
  simp at this

theorem stripQuery_of_not_mem {l : Str} (h : '?' ∉ l) : stripQuery l = l := by
  rw [stripQuery_eq_takeWhile]
  refine List.takeWhile_eq_self_iff.mpr ?_
  intro x hx
  simp only [bne_iff_ne, ne_eq]
  intro hxe
  exact h (hxe ▸ hx)

theorem stripQuery_ne_of_mem {l : Str} (h : '?' ∈ l) : stripQuery l ≠ l := by
  intro heq
  exact qmark_not_mem_stripQuery l (by rw [heq]; exact h)

theorem poolLoad_poolStore_self (pool : List (Str × CliSession)) (a : Str) (v : CliSession) :
    poolLoad (poolStore pool a v) a = some v := by
  induction pool with
  | nil => simp [poolStore, poolLoad]
  | cons hd t ih =>
    obtain ⟨k, s⟩ := hd
    by_cases h : k = a
    · simp [poolStore, poolLoad, h]
    · simp [poolStore, poolLoad, h, ih]

theorem poolStore_of_load_none {pool : List (Str × CliSession)} {a : Str}
    (h : poolLoad pool a = none) (v : CliSession) :
    poolStore pool a v = pool ++ [(a, v)] := by
  induction pool with
  | nil => simp [poolStore]
  | cons hd t ih =>
    obtain ⟨k, s⟩ := hd
    by_cases hk : k = a
    · simp [poolLoad, hk] at h
    · simp only [poolLoad, hk, if_false, if_neg hk] at h ⊢
      rw [poolStore]
      simp [hk, ih h]

theorem getCliSession_nil_linker {c : Client} (hl : c.linker = none) (uri : Str) :
    c.getCliSession uri = none := by
  simp [Client.getCliSession, hl]

theorem getCliSession_select_error {c : Client} {l : Linker} {uri : Str} {e : Rerror}
    (hl : c.linker = some l) (he : l (stripQuery uri) = Except.error e) :
    c.getCliSession uri = some (Except.error e, c) := by
  simp [Client.getCliSession, hl, he]

theorem getCliSession_pool_hit {c : Client} {l : Linker} {uri addr : Str} {s : CliSession}
    (hl : c.linker = some l) (ha : l (stripQuery uri) = Except.ok addr)
    (hp : loadPhase c addr = some s) :
    c.getCliSession uri = some (Except.ok s, c) := by
  rw [loadPhase] at hp
  simp [Client.getCliSession, hl, ha, hp]

theorem getCliSession_pool_miss {c : Client} {l : Linker} {uri addr : Str}
    (hl : c.linker = some l) (ha : l (stripQuery uri) = Except.ok addr)
    (hp : loadPhase c addr = none) :
    c.getCliSession uri =
      some (Except.ok (createStorePhase c addr).1, (createStorePhase c addr).2) := by
  rw [loadPhase] at hp
  simp [Client.getCliSession, hl, ha, hp, createStorePhase]

theorem storeNewSession_sameCore (c : Client) (addr : Str) :
    sameCore c (storeNewSession c addr) := by
  refine ⟨rfl, rfl, rfl, rfl, rfl⟩

theorem getCliSession_frame {c : Client} {uri : Str} {r : Except Rerror CliSession} {c' : Client}
    (h : c.getCliSession uri = some (r, c')) :
    sameCore c c' ∧ poolExtends c c' := by
  cases hl : c.linker with
  | none => rw [getCliSession_nil_linker hl] at h; exact absurd h (by simp)
  | some l =>
    cases hs : l (stripQuery uri) with
    | error e =>
      rw [getCliSession_select_error hl hs] at h
      obtain ⟨-, rfl⟩ : Except.error e = r ∧ c = c' := by
        simpa using h
      exact ⟨⟨rfl, rfl, rfl, rfl, rfl⟩, Or.inl rfl⟩
    | ok addr =>
      cases hp : loadPhase c addr with
      | some s =>
        rw [getCliSession_pool_hit hl hs hp] at h
        obtain ⟨-, rfl⟩ : Except.ok s = r ∧ c = c' := by
          simpa using h
        exact ⟨⟨rfl, rfl, rfl, rfl, rfl⟩, Or.inl rfl⟩
      | none =>
        rw [getCliSession_pool_miss hl hs hp] at h
        obtain ⟨-, rfl⟩ : Except.ok (createStorePhase c addr).1 = r ∧
            (createStorePhase c addr).2 = c' := by
          simpa using h
        refine ⟨storeNewSession_sameCore c addr, Or.inr ⟨addr, newSessionOf c addr, ?_, ?_⟩⟩
        · exact hp
        · show (storeNewSession c addr).cliSessPool = _
          rw [loadPhase] at hp
          simp [storeNewSession, poolStore_of_load_none hp]

theorem check_sessMaxQuota (cfg : CliConfig) :
    (cfg.check).1.sessMaxQuota = if cfg.sessMaxQuota ≤ 0 then 100 else cfg.sessMaxQuota := by
  by_cases h1 : cfg.sessMaxQuota ≤ 0 <;>
    by_cases h2 : cfg.sessMaxIdleDuration ≤ 0 <;>
      simp [CliConfig.check, h1, h2]

theorem check_sessMaxIdleDuration (cfg : CliConfig) :
    (cfg.check).1.sessMaxIdleDuration =
      if cfg.sessMaxIdleDuration ≤ 0 then timeMinute * 3 else cfg.sessMaxIdleDuration := by
  by_cases h1 : cfg.sessMaxQuota ≤ 0 <;>
    by_cases h2 : cfg.sessMaxIdleDuration ≤ 0 <;>
      simp [CliConfig.check, h1, h2]

theorem NewClient_eq (cfg : CliConfig) : NewClient cfg = some (clientOf cfg) := rfl

/-! Claim theorems. -/

/-- Claim C10: configuration validation never fails — `CliConfig.check`
returns a nil error for every configuration, only normalizing the two pool
fields, so `NewClient`'s fatal branch for a configuration-validation error
is unreachable (`NewClient` always succeeds). -/
theorem C10_check_never_fails (cfg : CliConfig) :
    (cfg.check).2 = none ∧ (NewClient cfg).isSome :=
  ⟨rfl, by rw [NewClient_eq]; rfl⟩

/-- Claim C6: a static-strategy resolver constructed with address `srvAddr`
returns `srvAddr` for every path and never returns an error. -/
theorem C6_static_linker_determinism (srvAddr uriPath : Str) :
    NewStaticLinker srvAddr uriPath = Except.ok srvAddr := rfl

/-- Claim C5: constructing a client from a configuration with
`sessMaxQuota <= 0` yields an effective pool capacity of exactly 100, and
with `sessMaxIdleDuration <= 0` an effective idle duration of exactly
3 minutes; positive values are kept unchanged. -/
theorem C5_config_defaulting (cfg : CliConfig) (c : Client) (hc : NewClient cfg = some c) :
    (cfg.sessMaxQuota ≤ 0 → c.sessMaxQuota = 100) ∧
    (0 < cfg.sessMaxQuota → c.sessMaxQuota = cfg.sessMaxQuota) ∧
    (cfg.sessMaxIdleDuration ≤ 0 → c.sessMaxIdleDuration = timeMinute * 3) ∧
    (0 < cfg.sessMaxIdleDuration → c.sessMaxIdleDuration = cfg.sessMaxIdleDuration) := by
  rw [NewClient_eq] at hc
  obtain rfl := Option.some.inj hc
  refine ⟨?_, ?_, ?_, ?_⟩ <;> intro h
  · show (cfg.check).1.sessMaxQuota = 100
    rw [check_sessMaxQuota, if_pos h]
  · show (cfg.check).1.sessMaxQuota = cfg.sessMaxQuota
    rw [check_sessMaxQuota, if_neg (by omega)]
  · show (cfg.check).1.sessMaxIdleDuration = timeMinute * 3
    rw [check_sessMaxIdleDuration, if_pos h]
  · show (cfg.check).1.sessMaxIdleDuration = cfg.sessMaxIdleDuration
    rw [check_sessMaxIdleDuration, if_neg (by omega)]

/-- Witness for C5 at the all-zero configuration: both pool parameters are
defaulted. -/
theorem C5_config_defaulting_witness :
    (clientOf cfg0).sessMaxQuota = 100 ∧
    (clientOf cfg0).sessMaxIdleDuration = timeMinute * 3 :=
  ⟨(C5_config_defaulting cfg0 (clientOf cfg0) rfl).1 (by decide),
   (C5_config_defaulting cfg0 (clientOf cfg0) rfl).2.2.1 (by decide)⟩

/-- Claim C4: for every uri, the resolver's `Select` is invoked with only
the path portion of the uri: everything from the first `?` onward is
stripped before resolution (`stripQuery` agrees with the spec-side
`stripQuerySpec`); `"/svc/method?x=1"` resolves using `"/svc/method"`; a
uri with no `?` is passed to `Select` unchanged. The last conjunct makes
the argument of `Select` observable through the identity linker: the
resolved address — hence the pool key and the session's bound address —
is the stripped path. -/
theorem C4_query_stripping :
    (∀ uri : Str, stripQuery uri = stripQuerySpec uri) ∧
    stripQuery ("/svc/method?x=1".toList) = "/svc/method".toList ∧
    (∀ uri : Str, '?' ∉ uri → stripQuery uri = uri) ∧
    (∀ uri : Str, idClient.getCliSession uri =
      some (Except.ok (newSessionOf idClient (stripQuery uri)),
            storeNewSession idClient (stripQuery uri))) := by
  refine ⟨?_, by decide, ?_, ?_⟩
  · intro uri
    rw [stripQuery_eq_takeWhile]
    rfl
  · intro uri h
    exact stripQuery_of_not_mem h
  · intro uri
    have h := @getCliSession_pool_miss idClient idLinker uri (stripQuery uri) rfl rfl rfl
    simpa [createStorePhase] using h

/-- Witness for C4: concrete evaluations of the stripping conjuncts. -/
theorem C4_query_stripping_witness :
    stripQuery ("/a?b".toList) = stripQuerySpec ("/a?b".toList) ∧
    stripQuery ("/svc/method".toList) = "/svc/method".toList :=
  ⟨C4_query_stripping.1 ("/a?b".toList),
   C4_query_stripping.2.2.1 ("/svc/method".toList) (by decide)⟩

/-- Claim C2: if the resolver's `Select` returns an error for the resolved
path of `uri`, then `Pull` returns a synthetic already-failed result
carrying that error, `Push` returns that same error directly, and
`AsyncPull` delivers exactly one failed completion on the notification
channel; in all three cases the returned client state is the original one
— the session pool (and the ghost creation counter) is unchanged, so no
session is created or touched. -/
theorem C2_resolution_failure_short_circuit (c : Client) (l : Linker) (uri : Str) (e : Rerror)
    (hl : c.linker = some l) (he : l (stripQuery uri) = Except.error e) :
    c.Pull uri = some (NewFakePullCmd c.peer uri e, c) ∧
    (NewFakePullCmd c.peer uri e).rerr = some e ∧
    (NewFakePullCmd c.peer uri e).isFake = true ∧
    c.Push uri = some (some e, c) ∧
    c.AsyncPull uri = some ([NewFakePullCmd c.peer uri e], c) := by
  have hg := getCliSession_select_error hl he
  refine ⟨?_, rfl, rfl, ?_, ?_⟩ <;>
    simp [Client.Pull, Client.Push, Client.AsyncPull, hg]

/-- Witness for C2 at a client whose linker always errors with `noRoute`. -/
theorem C2_resolution_failure_witness :
    noRouteClient.Pull ("/x".toList) =
      some (NewFakePullCmd noRouteClient.peer ("/x".toList) noRoute, noRouteClient) ∧
    (NewFakePullCmd noRouteClient.peer ("/x".toList) noRoute).rerr = some noRoute ∧
    (NewFakePullCmd noRouteClient.peer ("/x".toList) noRoute).isFake = true ∧
    noRouteClient.Push ("/x".toList) = some (some noRoute, noRouteClient) ∧
    noRouteClient.AsyncPull ("/x".toList) =
      some ([NewFakePullCmd noRouteClient.peer ("/x".toList) noRoute], noRouteClient) :=
  C2_resolution_failure_short_circuit noRouteClient noRouteLinker ("/x".toList) noRoute rfl rfl

/-- Claim C3 counterexample: with no resolver configured (nil `Linker`
interface), `Push("/x", nil)` does not terminate normally with the
`NoRoute` error as claimed — the dispatch calls `Select` through the nil
interface and panics (the `none` outcome); no error value is returned. -/
theorem C3_counterexample :
    noLinkerClient.Push ("/x".toList) = none ∧
    ¬ ∃ e c', noLinkerClient.Push ("/x".toList) = some (some e, c') := by
  refine ⟨rfl, ?_⟩
  rintro ⟨e, c', h⟩
  rw [show noLinkerClient.Push ("/x".toList) = none from rfl] at h
  exact Option.noConfusion h

/-- Claim C3 (amended): if the client has a resolver that always errors
with `NoRoute`, `Push` returns the `NoRoute` error and the session pool
remains empty; with no resolver configured, the dispatch instead panics on
the nil `Linker` interface (see the counterexample). -/
theorem C3_noroute_push (c : Client) (l : Linker) (e : Rerror) (uri : Str)
    (hl : c.linker = some l) (he : ∀ p, l p = Except.error e)
    (hpool : c.cliSessPool = []) :
    c.Push uri = some (some e, c) ∧ c.cliSessPool = [] := by
  have hg := getCliSession_select_error hl (he (stripQuery uri))
  exact ⟨by simp [Client.Push, hg], hpool⟩

/-- Witness for the amended C3 at the always-`noRoute` client. -/
theorem C3_noroute_push_witness :
    noRouteClient.Push ("/x".toList) = some (some noRoute, noRouteClient) ∧
    noRouteClient.cliSessPool = [] :=
  C3_noroute_push noRouteClient noRouteLinker noRoute ("/x".toList) rfl (fun _ => rfl) rfl

/-- Claim C8: when resolution fails for a uri containing `?`, the synthetic
failed result returned by `Pull` (and the one delivered on `AsyncPull`'s
channel) is constructed with the original uri including the query suffix,
even though resolution itself was attempted with the stripped path (which
differs from the original uri). -/
theorem C8_fake_result_keeps_query (c : Client) (l : Linker) (uri : Str) (e : Rerror)
    (hq : '?' ∈ uri) (hl : c.linker = some l)
    (he : l (stripQuery uri) = Except.error e) :
    stripQuery uri ≠ uri ∧
    c.Pull uri = some (NewFakePullCmd c.peer uri e, c) ∧
    (NewFakePullCmd c.peer uri e).uri = uri ∧
    c.AsyncPull uri = some ([NewFakePullCmd c.peer uri e], c) := by
  have hg := getCliSession_select_error hl he
  exact ⟨stripQuery_ne_of_mem hq, by simp [Client.Pull, hg], rfl,
    by simp [Client.AsyncPull, hg]⟩

/-- Witness for C8 at the uri `"/svc/method?x=1"`. -/
theorem C8_fake_result_keeps_query_witness :
    stripQuery ("/svc/method?x=1".toList) ≠ "/svc/method?x=1".toList ∧
    noRouteClient.Pull ("/svc/method?x=1".toList) =
      some (NewFakePullCmd noRouteClient.peer ("/svc/method?x=1".toList) noRoute,
            noRouteClient) ∧
    (NewFakePullCmd noRouteClient.peer ("/svc/method?x=1".toList) noRoute).uri =
      "/svc/method?x=1".toList ∧
    noRouteClient.AsyncPull ("/svc/method?x=1".toList) =
      some ([NewFakePullCmd noRouteClient.peer ("/svc/method?x=1".toList) noRoute],
            noRouteClient) :=
  C8_fake_result_keeps_query noRouteClient noRouteLinker ("/svc/method?x=1".toList) noRoute
    (by decide) rfl rfl

/-- Claim C1 counterexample: the pool insert of `getCliSession` is a plain
overwrite `Store` after a separate `Load`, not an atomic store-if-absent.
In the interleaving recorded by `raceTrace` — callers A and B both `Load`
the fresh address (both observe the same miss, first conjunct), then both
run the create-and-store phase — two distinct sessions are constructed
(ghost counter 2), the pool ends holding B's session, and A returns its own
newly constructed session, which is not the one stored: this refutes both
"exactly one Session instance is created" and "a caller that loses the
creation race discards its newly constructed Session and returns the one
already stored". -/
theorem C1_counterexample :
    loadPhase raceClient addr0 = none ∧
    raceTrace.2.2.nextSessionId = 2 ∧
    raceTrace.1 ≠ raceTrace.2.1 ∧
    loadPhase raceTrace.2.2 addr0 = some raceTrace.2.1 ∧
    loadPhase raceTrace.2.2 addr0 ≠ some raceTrace.1 := by
  refine ⟨rfl, rfl, ?_, rfl, ?_⟩ <;> decide

/-- Claim C1 (amended): under sequential (non-overlapping) calls resolving
to the same fresh address, exactly one session is created and then reused:
the first call constructs and stores `newSessionOf c addr` (advancing the
ghost creation counter once), and a subsequent call resolving to the same
address returns that very session without creating another or changing the
client. Under concurrent interleavings the Load/Store pair is not atomic,
so two racing callers may each create and store a session (see the
counterexample). -/
theorem C1_sequential_pool_reuse (c : Client) (l : Linker) (u1 u2 addr : Str)
    (hl : c.linker = some l)
    (h1 : l (stripQuery u1) = Except.ok addr)
    (h2 : l (stripQuery u2) = Except.ok addr)
    (hp : loadPhase c addr = none) :
    c.getCliSession u1 =
      some (Except.ok (newSessionOf c addr), storeNewSession c addr) ∧
    (storeNewSession c addr).nextSessionId = c.nextSessionId + 1 ∧
    loadPhase (storeNewSession c addr) addr = some (newSessionOf c addr) ∧
    (storeNewSession c addr).getCliSession u2 =
      some (Except.ok (newSessionOf c addr), storeNewSession c addr) := by
  have hmiss := getCliSession_pool_miss hl h1 hp
  have hload : loadPhase (storeNewSession c addr) addr = some (newSessionOf c addr) := by
    simp [loadPhase, storeNewSession, poolLoad_poolStore_self]
  have hl2 : (storeNewSession c addr).linker = some l := hl
  exact ⟨by simpa [createStorePhase] using hmiss, rfl, hload,
    getCliSession_pool_hit hl2 h2 hload⟩

/-- Witness for the amended C1: two sequential calls on the static-linker
client create one session and reuse it. -/
theorem C1_sequential_pool_reuse_witness :
    raceClient.getCliSession ("/echo".toList) =
      some (Except.ok (newSessionOf raceClient addr0), storeNewSession raceClient addr0) ∧
    (storeNewSession raceClient addr0).nextSessionId = raceClient.nextSessionId + 1 ∧
    loadPhase (storeNewSession raceClient addr0) addr0 =
      some (newSessionOf raceClient addr0) ∧
    (storeNewSession raceClient addr0).getCliSession ("/echo2".toList) =
      some (Except.ok (newSessionOf raceClient addr0), storeNewSession raceClient addr0) :=
  C1_sequential_pool_reuse raceClient (NewStaticLinker addr0)
    ("/echo".toList) ("/echo2".toList) addr0 rfl rfl rfl rfl

/-- Claim C7: when the pool must create a new session for a freshly
resolved address, the session constructor receives exactly the client's
shared transport endpoint, the resolved address, the normalized pool
capacity and the normalized idle duration, in that role assignment (the
client being built by `NewClient` and given a linker by `SetLinker`). -/
theorem C7_session_constructor_args (cfg : CliConfig) (l : Linker) (uri addr : Str)
    (c : Client) (hc : NewClient cfg = some c)
    (hsel : l (stripQuery uri) = Except.ok addr) :
    (c.SetLinker l).getCliSession uri =
      some (Except.ok (newSessionOf (c.SetLinker l) addr),
            storeNewSession (c.SetLinker l) addr) ∧
    (newSessionOf (c.SetLinker l) addr).peer = c.peer ∧
    (newSessionOf (c.SetLinker l) addr).addr = addr ∧
    (newSessionOf (c.SetLinker l) addr).sessMaxQuota =
      (if cfg.sessMaxQuota ≤ 0 then 100 else cfg.sessMaxQuota) ∧
    (newSessionOf (c.SetLinker l) addr).sessMaxIdleDuration =
      (if cfg.sessMaxIdleDuration ≤ 0 then timeMinute * 3
       else cfg.sessMaxIdleDuration) := by
  rw [NewClient_eq] at hc
  obtain rfl := Option.some.inj hc
  have hl : ((clientOf cfg).SetLinker l).linker = some l := rfl
  have hp : loadPhase ((clientOf cfg).SetLinker l) addr = none := rfl
  have h := getCliSession_pool_miss hl hsel hp
  refine ⟨by simpa [createStorePhase] using h, rfl, rfl, ?_, ?_⟩
  · exact check_sessMaxQuota cfg
  · exact check_sessMaxIdleDuration cfg

/-- Witness for C7 at the zero config and the static linker. -/
theorem C7_session_constructor_args_witness :
    ((clientOf cfg0).SetLinker (NewStaticLinker addr0)).getCliSession ("/echo".toList) =
      some (Except.ok (newSessionOf ((clientOf cfg0).SetLinker (NewStaticLinker addr0)) addr0),
            storeNewSession ((clientOf cfg0).SetLinker (NewStaticLinker addr0)) addr0) ∧
    (newSessionOf ((clientOf cfg0).SetLinker (NewStaticLinker addr0)) addr0).peer =
      (clientOf cfg0).peer ∧
    (newSessionOf ((clientOf cfg0).SetLinker (NewStaticLinker addr0)) addr0).addr = addr0 ∧
    (newSessionOf ((clientOf cfg0).SetLinker (NewStaticLinker addr0)) addr0).sessMaxQuota =
      (if cfg0.sessMaxQuota ≤ 0 then 100 else cfg0.sessMaxQuota) ∧
    (newSessionOf ((clientOf cfg0).SetLinker (NewStaticLinker addr0)) addr0).sessMaxIdleDuration =
      (if cfg0.sessMaxIdleDuration ≤ 0 then timeMinute * 3
       else cfg0.sessMaxIdleDuration) :=
  C7_session_constructor_args cfg0 (NewStaticLinker addr0) ("/echo".toList) addr0
    (clientOf cfg0) rfl rfl

/-- Claim C9: `Pull`, `Push` and `AsyncPull` never modify the client's
`peer`, `linker`, `protoFunc`, `sessMaxQuota` or `sessMaxIdleDuration`
(`sameCore`); the only client state any of them mutates is the session
pool, and a single call adds at most one entry to it — zero when it is
unchanged, which covers resolution failure and an already-present address
(`poolExtends`). -/
theorem C9_dispatch_frame (c : Client) (uri : Str) :
    (∀ cmd c', c.Pull uri = some (cmd, c') → sameCore c c' ∧ poolExtends c c') ∧
    (∀ r c', c.Push uri = some (r, c') → sameCore c c' ∧ poolExtends c c') ∧
    (∀ out c', c.AsyncPull uri = some (out, c') → sameCore c c' ∧ poolExtends c c') := by
  refine ⟨?_, ?_, ?_⟩ <;> intro x c' h <;>
  · cases hg : c.getCliSession uri with
    | none => simp [Client.Pull, Client.Push, Client.AsyncPull, hg] at h
    | some rc =>
      obtain ⟨r, c''⟩ := rc
      cases r with
      | error e =>
        simp only [Client.Pull, Client.Push, Client.AsyncPull, hg, Option.some.injEq,
          Prod.mk.injEq] at h
        obtain ⟨-, h2⟩ := h
        subst h2
        exact getCliSession_frame hg
      | ok s =>
        simp only [Client.Pull, Client.Push, Client.AsyncPull, hg, Option.some.injEq,
          Prod.mk.injEq] at h
        obtain ⟨-, h2⟩ := h
        subst h2
        exact getCliSession_frame hg

/-- Witness for C9: a pool-miss `Pull` on the static-linker client keeps
the core fields and appends exactly one pool entry. -/
theorem C9_dispatch_frame_witness :
    sameCore raceClient (storeNewSession raceClient addr0) ∧
    poolExtends raceClient (storeNewSession raceClient addr0) :=
  (C9_dispatch_frame raceClient ("/echo".toList)).1
    ((newSessionOf raceClient addr0).Pull ("/echo".toList))
    (storeNewSession raceClient addr0) rfl
